import Mathlib

/-!
Verification of the bulk-loader pipeline in `memc_load.py`: per-line parsing
(`parse_appsinstalled`), store writing (`insert_appsinstalled`), line handling
(`handle_line`), per-file accounting (`calculate_raiting`), file processing
(`process_file`), the completion rename (`dot_rename`) and file discovery
(modelled from Python's glob module).

Strings are modelled as `List Char`; Python exceptions are modelled with
`Except`; the builtins `int()` and `float()` are modelled as opaque parser
parameters (`none` = the builtin raises ValueError), floats as exact
rationals; the memcache client is an opaque parameter that either returns a
value or raises.
-/

set_option maxRecDepth 8000

namespace MemcLoad

/-- Text values, modelled as lists of characters. -/
abbrev Str := List Char

/-- The whitespace characters stripped by Python's str.strip(). -/
def isPySpace (c : Char) : Bool :=
  c = ' ' || c = '\t' || c = '\n' || c = '\r' || c = '\x0b' || c = '\x0c'

/-- Model of Python str.strip(): drop leading and trailing whitespace. -/
def pyStrip (s : Str) : Str :=
  ((s.dropWhile isPySpace).reverse.dropWhile isPySpace).reverse

/-- Model of Python str.split(sep) for a one-character separator: no collapsing
of adjacent separators, and splitting the empty string yields one empty part. -/
def pySplit (sep : Char) : Str → List Str
  | [] => [[]]
  | a :: rest =>
    let r := pySplit sep rest
    if a = sep then [] :: r
    else
      match r with
      | [] => [[a]]
      | h :: t => (a :: h) :: t

deriving instance DecidableEq for Except

/-- The Python exceptions that the embedded code can raise. -/
inductive PyErr
  | valueError
  | attributeError
  | typeError
deriving DecidableEq

/-- A latitude/longitude field: either a successfully parsed float (modelled as
an exact rational) or the raw pre-parse text retained after a failed parse. -/
inductive Coord
  | flt (q : ℚ)
  | raw (s : Str)
deriving DecidableEq

/-- The AppsInstalled namedtuple (line 25 of memc_load.py). -/
structure AppsInstalled where
  dev_type : Str
  dev_id : Str
  lat : Coord
  lon : Coord
  apps : List Int
deriving DecidableEq

/-- Diagnostic log events emitted by the parser. -/
inductive Diag
  | badCoords
deriving DecidableEq

/-- The HandleLineResult enum (lines 28-31). -/
inductive HandleLineResult
  | SKIP
  | OK
  | ERROR
deriving DecidableEq

/-- The comprehension `[int(a.strip()) for a in raw_apps.split(",")]` of line
69: left-to-right and all-or-nothing (`none` = some int() call raised
ValueError). -/
def intListOf (intP : Str → Option Int) : List Str → Option (List Int)
  | [] => some []
  | a :: rest =>
    match intP (pyStrip a), intListOf intP rest with
    | some v, some vs => some (v :: vs)
    | _, _ => none

/-- Embedding of parse_appsinstalled (lines 61-77).  `intP` models the builtin
int() applied to a token (`none` = ValueError); `floatP` models float()
(`none` = ValueError).  Returns the parse result together with the diagnostic
events logged.  The except-ValueError fallback at line 71 filters with
`a.isidigit()`, which is not a str method (the self-test at line 145 spells it
`isdigit`), so evaluating the fallback raises AttributeError at its first
token; since str.split(",") always yields at least one token, a failed app-id
list always raises.  A line with more than five tab-separated parts raises
ValueError at the tuple unpacking on line 65, because only `len < 5` is
guarded.  On a coordinate parse failure neither assignment of line 74 happens,
so both coordinate fields keep their raw text. -/
def parse_appsinstalled (intP : Str → Option Int) (floatP : Str → Option ℚ)
    (line : Str) : Except PyErr (Option AppsInstalled × List Diag) :=
  let line_parts := pySplit '\t' (pyStrip line)
  if line_parts.length < 5 then .ok (none, [])
  else
    match line_parts with
    | [dev_type, dev_id, lat, lon, raw_apps] =>
      if dev_type = [] ∨ dev_id = [] then .ok (none, [])
      else
        match intListOf intP (pySplit ',' raw_apps) with
        | none => .error .attributeError
        | some apps =>
          match floatP lat, floatP lon with
          | some la, some lo =>
            .ok (some ⟨dev_type, dev_id, .flt la, .flt lo, apps⟩, [])
          | _, _ =>
            .ok (some ⟨dev_type, dev_id, .raw lat, .raw lon, apps⟩, [Diag.badCoords])
    | _ => .error .valueError

/-- The serialized protobuf value, modelled opaquely as its field triple. -/
structure Packed where
  lat : ℚ
  lon : ℚ
  apps : List Int
deriving DecidableEq

/-- The protobuf field assignments and serialization of lines 41-46: assigning
a non-float value to ua.lat / ua.lon raises TypeError.  This happens before
the try block of line 49. -/
def serializeUA (r : AppsInstalled) : Except PyErr Packed :=
  match r.lat, r.lon with
  | .flt la, .flt lo => .ok ⟨la, lo, r.apps⟩
  | _, _ => .error .typeError

/-- One call made to the memcache client. -/
structure Call where
  addr : Str
  key : Str
  value : Packed
deriving DecidableEq

/-- Embedding of insert_appsinstalled (lines 40-58).  `memcSet` models
memcache.Client([memc_addr]).set(key, packed): `.ok b` means the call returns
`b` (the source discards this return value), `.error e` means it raises.
Returns the boolean outcome together with the list of store-client calls
made.  Serialization happens before the try block; in dry-run mode the value
is only logged and no client call is made; a raising client call is caught
and reported as False. -/
def insert_appsinstalled (memcSet : Str → Str → Packed → Except PyErr Bool)
    (memc_addr : Str) (appsinstalled : AppsInstalled) (dry_run : Bool) :
    Except PyErr (Bool × List Call) :=
  match serializeUA appsinstalled with
  | .error e => .error e
  | .ok packed =>
    let key := appsinstalled.dev_type ++ ':' :: appsinstalled.dev_id
    if dry_run then .ok (true, [])
    else
      match memcSet memc_addr key packed with
      | .ok _ => .ok (true, [⟨memc_addr, key, packed⟩])
      | .error _ => .ok (false, [⟨memc_addr, key, packed⟩])

/-- Embedding of handle_line (lines 84-96).  `device_memc` models the dict
lookup device_memc.get(dev_type) (`none` when the key is absent); the source's
`if not memc_addr` also treats an empty address string as missing.  Returns
the line outcome together with the store-client calls made for this line. -/
def handle_line (intP : Str → Option Int) (floatP : Str → Option ℚ)
    (memcSet : Str → Str → Packed → Except PyErr Bool)
    (dry : Bool) (device_memc : Str → Option Str) (line : Str) :
    Except PyErr (HandleLineResult × List Call) :=
  let line' := pyStrip line
  if line' = [] then .ok (.SKIP, [])
  else
    match parse_appsinstalled intP floatP line' with
    | .error e => .error e
    | .ok (none, _) => .ok (.ERROR, [])
    | .ok (some appsinstalled, _) =>
      match device_memc appsinstalled.dev_type with
      | none => .ok (.ERROR, [])
      | some memc_addr =>
        if memc_addr = [] then .ok (.ERROR, [])
        else
          match insert_appsinstalled memcSet memc_addr appsinstalled dry with
          | .error e => .error e
          | .ok (true, calls) => .ok (.OK, calls)
          | .ok (false, calls) => .ok (.ERROR, calls)

/-- The counting loop of calculate_raiting (lines 100-105).  The branch at
line 104 is `elif HandleLineResult.ERROR:`, which tests the truthiness of the
enum member itself (always true in Python), so every result other than OK,
including SKIP, increments errors. -/
def countPE (results : List HandleLineResult) : Nat × Nat :=
  results.foldl
    (fun pe r => if r = .OK then (pe.1 + 1, pe.2) else (pe.1, pe.2 + 1))
    (0, 0)

/-- NORMAL_ERR_RATE (line 24), as an exact rational. -/
def NORMAL_ERR_RATE : ℚ := 1 / 100

/-- The per-file verdict logged by calculate_raiting. -/
inductive Verdict
  | success
  | failed
deriving DecidableEq

/-- Embedding of calculate_raiting (lines 99-112): the verdict it logs, or
`none` when processed == 0 (lines 106-107 return without logging). -/
def calculate_raiting (results : List HandleLineResult) : Option Verdict :=
  if (countPE results).1 = 0 then none
  else if ((countPE results).2 : ℚ) / ((countPE results).1 : ℚ) < NORMAL_ERR_RATE then
    some .success
  else some .failed

/-- Characters other than the path separator. -/
def notSlash (c : Char) : Bool := c != '/'

/-- Model of os.path.split: split at the last '/'; the head keeps no trailing
slashes unless it consists only of slashes. -/
def osPathSplit (p : Str) : Str × Str :=
  let r := p.reverse
  let tail := (r.takeWhile notSlash).reverse
  let head := (r.dropWhile notSlash).reverse
  let head' :=
    if head.any notSlash then (head.reverse.dropWhile (fun c => c = '/')).reverse
    else head
  (head', tail)

/-- Model of os.path.join for a relative second component. -/
def osPathJoin (head fn : Str) : Str :=
  if head = [] then fn
  else if head.getLast? = some '/' then head ++ fn
  else head ++ '/' :: fn

/-- Embedding of dot_rename (lines 34-37): the path the processed file is
renamed to, with a '.' prefixed to its basename, in the same directory. -/
def dot_rename (path : Str) : Str :=
  let hf := osPathSplit path
  osPathJoin hf.1 ('.' :: hf.2)

/-- Model of the line worker pool of lines 118-121: pool.map applies
handle_line to every line and collects one outcome per line in input order,
and close/join block until all lines are done; an exception raised in any
worker is re-raised by pool.map. -/
def poolMapLines (g : Str → Except PyErr (HandleLineResult × List Call)) :
    List Str → Except PyErr (List HandleLineResult)
  | [] => .ok []
  | l :: ls =>
    match g l with
    | .error e => .error e
    | .ok r =>
      match poolMapLines g ls with
      | .error e => .error e
      | .ok rs => .ok (r.1 :: rs)

/-- The observable events of processing one file, in order. -/
inductive PFEvent
  | outcome (r : HandleLineResult)
  | renamed (newPath : Str)
  | verdict (v : Verdict)
deriving DecidableEq

/-- Embedding of process_file (lines 115-124) as the ordered trace of its
observable events: all line outcomes are collected (pool joined), then the
file is renamed, then the verdict, if any, is logged.  An exception raised on
some line propagates out of pool.map before the rename. -/
def process_file (handle : Str → Except PyErr (HandleLineResult × List Call))
    (filename : Str) (lines : List Str) : Except PyErr (List PFEvent) :=
  match poolMapLines handle lines with
  | .error e => .error e
  | .ok results =>
    .ok (results.map PFEvent.outcome
         ++ PFEvent.renamed (dot_rename filename)
            :: (calculate_raiting results).toList.map PFEvent.verdict)

/-- Modelled from the spec and Python's fnmatch module, restricted to the
wildcards '*' and '?' plus literal characters (no bracket classes, which the
configured patterns do not use).  Fuel-based so that it reduces in the
kernel; every step shortens the pattern or the name, so
pat.length + name.length + 1 fuel always suffices. -/
def fnmatchAux : Nat → Str → Str → Bool
  | 0, _, _ => false
  | _ + 1, [], [] => true
  | _ + 1, [], _ :: _ => false
  | f + 1, '*' :: ps, name =>
    fnmatchAux f ps name ||
      (match name with
       | [] => false
       | _ :: ns => fnmatchAux f ('*' :: ps) ns)
  | f + 1, '?' :: ps, _ :: ns => fnmatchAux f ps ns
  | _ + 1, _ :: _, [] => false
  | f + 1, p :: ps, n :: ns => (p = n) && fnmatchAux f ps ns

/-- Wildcard match of a basename against a pattern component. -/
def fnmatch (pat name : Str) : Bool :=
  fnmatchAux (pat.length + name.length + 1) pat name

/-- Modelled from Python's glob.glob1: names starting with '.' are hidden and
are excluded from the candidates unless the pattern component itself starts
with '.'; the survivors are filtered with fnmatch. -/
def glob1Match (pat name : Str) : Bool :=
  (if name.head? = some '.' then decide (pat.head? = some '.') else true)
    && fnmatch pat name

/-- Modelled from glob.iglob as used at line 134, for a pattern whose
directory part is literal (as the default configuration's pattern is): a path
is selected when its directory equals the pattern's directory and its
basename matches the pattern's basename component. -/
def globSelect (pattern path : Str) : Bool :=
  let pd := osPathSplit pattern
  let fd := osPathSplit path
  decide (fd.1 = pd.1) && glob1Match pd.2 fd.2

/-- Value of a digit string. -/
def digitsVal (ds : Str) : Nat :=
  ds.foldl (fun n c => 10 * n + (c.toNat - '0'.toNat)) 0

/-- Simple concrete model of Python int() on a token: surrounding whitespace
is stripped, then an optional sign followed by one or more decimal digits. -/
def pyInt? (s : Str) : Option Int :=
  let core : Str → Option Int := fun ds =>
    if ds ≠ [] ∧ ds.all Char.isDigit then some (digitsVal ds : Int) else none
  match pyStrip s with
  | '-' :: ds => (core ds).map (fun n => -n)
  | '+' :: ds => core ds
  | ds => core ds

/-- Simple concrete model of Python float() on a token: an optional sign,
then digits with at most one decimal point, as an exact rational. -/
def pyFloat? (s : Str) : Option ℚ :=
  let core : Str → Option ℚ := fun ds =>
    match pySplit '.' ds with
    | [ip] =>
      if ip ≠ [] ∧ ip.all Char.isDigit then some (digitsVal ip : ℚ) else none
    | [ip, fp] =>
      if (ip ≠ [] ∨ fp ≠ []) ∧ ip.all Char.isDigit ∧ fp.all Char.isDigit then
        some ((digitsVal ip : ℚ) + (digitsVal fp : ℚ) / ((10 : ℚ) ^ fp.length))
      else none
    | _ => none
  match pyStrip s with
  | '-' :: ds => (core ds).map Neg.neg
  | '+' :: ds => core ds
  | ds => core ds


/-! ### Helper lemmas -/

/-- Parsing an empty line: one empty part, fewer than five fields. -/
lemma parse_appsinstalled_of_strip_nil (intP : Str → Option Int) (floatP : Str → Option ℚ)
    (line : Str) (h : pyStrip line = []) :
    parse_appsinstalled intP floatP (pyStrip line) = .ok (none, []) := by
  rw [h]; rfl

/-- A successful parse forces the stripped line to be non-empty. -/
lemma strip_ne_nil_of_parse_some (intP : Str → Option Int) (floatP : Str → Option ℚ)
    (line : Str) (r : AppsInstalled) (diags : List Diag)
    (hp : parse_appsinstalled intP floatP (pyStrip line) = .ok (some r, diags)) :
    pyStrip line ≠ [] := by
  intro h
  rw [parse_appsinstalled_of_strip_nil intP floatP line h] at hp
  simp at hp

/-- Elements of takeWhile satisfy the predicate. -/
lemma prop_of_mem_takeWhile {α} {p : α → Bool} :
    ∀ {l : List α} {a : α}, a ∈ l.takeWhile p → p a = true := by
  intro l
  induction l with
  | nil => intro a h; simp [List.takeWhile] at h
  | cons b bs ih =>
    intro a h
    by_cases hb : p b
    · rw [List.takeWhile_cons_of_pos hb] at h
      rcases List.mem_cons.mp h with rfl | h
      · exact hb
      · exact ih h
    · rw [List.takeWhile_cons_of_neg hb] at h
      simp at h

/-- takeWhile leaves a list unchanged when every element satisfies p. -/
lemma takeWhile_of_all {α} (p : α → Bool) :
    ∀ xs : List α, (∀ c ∈ xs, p c = true) → xs.takeWhile p = xs := by
  intro xs
  induction xs with
  | nil => intro _; rfl
  | cons a xs ih =>
    intro h
    rw [List.takeWhile_cons_of_pos (h a (by simp))]
    rw [ih (fun c hc => h c (by simp [hc]))]

/-- takeWhile stops exactly at the first failing element. -/
lemma takeWhile_append_stop {α} (p : α → Bool) (y : α) (hy : p y = false) :
    ∀ (xs ys : List α), (∀ c ∈ xs, p c = true) → (xs ++ y :: ys).takeWhile p = xs := by
  intro xs ys
  induction xs with
  | nil =>
    intro _
    rw [List.nil_append, List.takeWhile_cons_of_neg (by simp [hy])]
  | cons a xs ih =>
    intro h
    rw [List.cons_append, List.takeWhile_cons_of_pos (h a (by simp))]
    rw [ih (fun c hc => h c (by simp [hc]))]

/-- Basenames produced by osPathSplit contain no slash. -/
lemma notSlash_of_mem_basename (p : Str) : ∀ c ∈ (osPathSplit p).2, notSlash c = true := by
  intro c hc
  simp only [osPathSplit, List.mem_reverse] at hc
  exact prop_of_mem_takeWhile hc

/-- osPathSplit recovers the basename component appended by osPathJoin as long
as that component is slash-free. -/
lemma osPathSplit_join_tail (h s : Str) (hs : ∀ c ∈ s, notSlash c = true) :
    (osPathSplit (osPathJoin h s)).2 = s := by
  have hsr : ∀ c ∈ s.reverse, notSlash c = true := fun c hc => hs c (List.mem_reverse.mp hc)
  unfold osPathJoin
  by_cases h0 : h = []
  · rw [if_pos h0]
    simp only [osPathSplit]
    rw [takeWhile_of_all notSlash s.reverse hsr, List.reverse_reverse]
  · rw [if_neg h0]
    by_cases h1 : h.getLast? = some '/'
    · rw [if_pos h1]
      rcases List.eq_nil_or_concat h with rfl | ⟨h', a, hconcat⟩
      · exact absurd rfl h0
      · subst hconcat
        rw [List.concat_eq_append] at h1 ⊢
        have ha : a = '/' := by
          rw [List.getLast?_append_cons] at h1
          simpa using h1
        subst ha
        simp only [osPathSplit, List.append_assoc, List.singleton_append, List.reverse_append,
          List.reverse_cons, List.reverse_nil, List.nil_append, List.cons_append]
        rw [takeWhile_append_stop notSlash '/' rfl s.reverse h'.reverse hsr,
          List.reverse_reverse]
    · rw [if_neg h1]
      simp only [osPathSplit, List.reverse_append, List.reverse_cons, List.append_assoc,
        List.singleton_append]
      rw [takeWhile_append_stop notSlash '/' rfl s.reverse h.reverse hsr,
        List.reverse_reverse]

/-- The rename keeps the basename and prefixes it with '.'. -/
lemma basename_dot_rename (p : Str) :
    (osPathSplit (dot_rename p)).2 = '.' :: (osPathSplit p).2 := by
  unfold dot_rename
  refine osPathSplit_join_tail _ _ ?_
  intro c hc
  rcases List.mem_cons.mp hc with rfl | hc
  · rfl
  · exact notSlash_of_mem_basename p c hc

/-- The line pool returns one outcome per input line. -/
lemma poolMapLines_ok_length (g : Str → Except PyErr (HandleLineResult × List Call)) :
    ∀ (ls : List Str) (rs : List HandleLineResult),
      poolMapLines g ls = .ok rs → rs.length = ls.length := by
  intro ls
  induction ls with
  | nil =>
    intro rs h
    simp only [poolMapLines, Except.ok.injEq] at h
    subst h
    rfl
  | cons l ls ih =>
    intro rs h
    simp only [poolMapLines] at h
    cases hg : g l with
    | error e => rw [hg] at h; simp at h
    | ok r =>
      rw [hg] at h
      cases hm : poolMapLines g ls with
      | error e => rw [hm] at h; simp at h
      | ok rs' =>
        rw [hm] at h
        simp only [Except.ok.injEq] at h
        subst h
        simp [ih rs' hm]

/-! ### Claim theorems -/

/-- C1: refuted on the code.  The claim says any malformed line, including one
with a number of tab-separated fields other than five, is absorbed into a
per-line outcome.  In fact a line with six tab-separated fields raises
ValueError at the tuple unpacking in parse_appsinstalled (only `len < 5` is
guarded), and the exception escapes handle_line. -/
theorem handle_line_six_field_line_raises :
    handle_line pyInt? pyFloat? (fun _ _ _ => .ok true) false (fun _ => some ['m'])
      "idfa\tid\t1.0\t2.0\t1,2\tjunk".data = .error .valueError := by decide

/-- C2: refuted on the code.  The branch `elif HandleLineResult.ERROR:` in
calculate_raiting tests the truthiness of the enum member, so a SKIP outcome
is counted as an error instead of being excluded, and a blank line (one SKIP)
flips the verdict of an otherwise clean file from success to failure. -/
theorem calculate_raiting_counts_skip_as_error :
    countPE [HandleLineResult.SKIP] = (0, 1) ∧
    calculate_raiting [HandleLineResult.OK] = some Verdict.success ∧
    calculate_raiting [HandleLineResult.OK, HandleLineResult.SKIP] = some Verdict.failed := by
  refine ⟨by decide, ?_, ?_⟩
  · have h : countPE [HandleLineResult.OK] = (1, 0) := by decide
    unfold calculate_raiting
    rw [h]
    norm_num [NORMAL_ERR_RATE]
  · have h : countPE [HandleLineResult.OK, HandleLineResult.SKIP] = (1, 1) := by decide
    unfold calculate_raiting
    rw [h]
    norm_num [NORMAL_ERR_RATE]

/-- C3: refuted on the code.  On a line whose app-id list holds a non-numeric
token, the fallback comprehension filters with `a.isidigit()`, which is not a
str method, so the parser raises AttributeError instead of discarding the bad
tokens and returning the record. -/
theorem parse_appsinstalled_bad_token_raises :
    parse_appsinstalled pyInt? pyFloat? "idfa\tid\t1.0\t2.0\t1,abc".data =
      .error .attributeError := by decide

/-- C4 counterexample: insert_appsinstalled propagates TypeError for a record
whose coordinates were retained as raw text, because the protobuf field
assignment happens before the try block. -/
theorem insert_appsinstalled_raw_coords_raises :
    insert_appsinstalled (fun _ _ _ => .ok true) ['m']
      ⟨"idfa".data, "id".data, .raw ['A'], .raw ['B'], []⟩ false = .error .typeError := by
  decide

/-- C4 amended: for a record whose coordinates are parsed floats,
insert_appsinstalled never propagates: it returns an outcome for every client
behaviour, and the outcome is failure exactly when the write is live and the
client raises (a failure signalled through the client's return value is
ignored, since the source discards it). -/
theorem insert_appsinstalled_float_coords_no_raise
    (memcSet : Str → Str → Packed → Except PyErr Bool) (memc_addr dt did : Str)
    (la lo : ℚ) (apps : List Int) (dry : Bool) :
    ∃ b calls,
      insert_appsinstalled memcSet memc_addr ⟨dt, did, .flt la, .flt lo, apps⟩ dry =
        .ok (b, calls) ∧
      (b = false ↔
        dry = false ∧ ∃ e, memcSet memc_addr (dt ++ ':' :: did) ⟨la, lo, apps⟩ = .error e) := by
  cases dry with
  | true =>
    refine ⟨true, [], ?_, ?_⟩
    · simp [insert_appsinstalled, serializeUA]
    · simp
  | false =>
    cases hm : memcSet memc_addr (dt ++ ':' :: did) ⟨la, lo, apps⟩ with
    | ok v =>
      refine ⟨true, [⟨memc_addr, dt ++ ':' :: did, ⟨la, lo, apps⟩⟩], ?_, ?_⟩
      · simp [insert_appsinstalled, serializeUA, hm]
      · simp [hm]
    | error e =>
      refine ⟨false, [⟨memc_addr, dt ++ ':' :: did, ⟨la, lo, apps⟩⟩], ?_, ?_⟩
      · simp [insert_appsinstalled, serializeUA, hm]
      · simp [hm]

/-- C7: the completion gate.  When processed is zero no verdict is logged;
when it is positive the verdict is success exactly when errors / processed is
strictly below NORMAL_ERR_RATE = 1/100 and failure otherwise; concretely 100
OK outcomes give success and 100 OK plus 2 ERROR outcomes give failure. -/
theorem calculate_raiting_gate (results : List HandleLineResult) :
    ((countPE results).1 = 0 → calculate_raiting results = none) ∧
    ((countPE results).1 ≠ 0 →
      ((calculate_raiting results = some Verdict.success ↔
        ((countPE results).2 : ℚ) / ((countPE results).1 : ℚ) < NORMAL_ERR_RATE) ∧
       (calculate_raiting results = some Verdict.failed ↔
        ¬ ((countPE results).2 : ℚ) / ((countPE results).1 : ℚ) < NORMAL_ERR_RATE))) ∧
    calculate_raiting (List.replicate 100 HandleLineResult.OK) = some Verdict.success ∧
    calculate_raiting (List.replicate 100 HandleLineResult.OK ++
      List.replicate 2 HandleLineResult.ERROR) = some Verdict.failed := by
  refine ⟨?_, ?_, ?_, ?_⟩
  · intro h
    unfold calculate_raiting
    rw [if_pos h]
  · intro h
    by_cases hc : ((countPE results).2 : ℚ) / ((countPE results).1 : ℚ) < NORMAL_ERR_RATE
    · simp [calculate_raiting, h, hc]
    · simp [calculate_raiting, h, hc]
  · have h : countPE (List.replicate 100 HandleLineResult.OK) = (100, 0) := by decide
    unfold calculate_raiting
    rw [h]
    norm_num [NORMAL_ERR_RATE]
  · have h : countPE (List.replicate 100 HandleLineResult.OK ++
        List.replicate 2 HandleLineResult.ERROR) = (100, 2) := by decide
    unfold calculate_raiting
    rw [h]
    norm_num [NORMAL_ERR_RATE]

/-- C7 witness: the gate applied to 100 OK outcomes. -/
theorem calculate_raiting_gate_witness :
    (countPE (List.replicate 100 HandleLineResult.OK)).1 ≠ 0 ∧
    (calculate_raiting (List.replicate 100 HandleLineResult.OK) = some Verdict.success ↔
      ((countPE (List.replicate 100 HandleLineResult.OK)).2 : ℚ) /
        ((countPE (List.replicate 100 HandleLineResult.OK)).1 : ℚ) < NORMAL_ERR_RATE) :=
  ⟨by decide,
    ((calculate_raiting_gate (List.replicate 100 HandleLineResult.OK)).2.1 (by decide)).1⟩

/-- C8: a line that parses to a record whose device type has no entry in the
shard table gets outcome ERROR, and the empty call list shows that no store
write is attempted. -/
theorem handle_line_unknown_device (intP : Str → Option Int) (floatP : Str → Option ℚ)
    (memcSet : Str → Str → Packed → Except PyErr Bool) (dry : Bool)
    (dm : Str → Option Str) (line : Str) (r : AppsInstalled) (diags : List Diag)
    (hp : parse_appsinstalled intP floatP (pyStrip line) = .ok (some r, diags))
    (hdm : dm r.dev_type = none) :
    handle_line intP floatP memcSet dry dm line = .ok (.ERROR, []) := by
  have h0 : pyStrip line ≠ [] := strip_ne_nil_of_parse_some intP floatP line r diags hp
  simp [handle_line, h0, hp, hdm]

/-- C8 witness: a well-formed idfa line against an empty shard table. -/
theorem handle_line_unknown_device_witness :
    parse_appsinstalled pyInt? (fun _ => none) (pyStrip "idfa\tid\t1\t2\t3".data) =
      .ok (some ⟨"idfa".data, "id".data, .raw ['1'], .raw ['2'], [3]⟩, [Diag.badCoords]) ∧
    handle_line pyInt? (fun _ => none) (fun _ _ _ => .ok true) false (fun _ => none)
      "idfa\tid\t1\t2\t3".data = .ok (.ERROR, []) :=
  ⟨by decide,
    handle_line_unknown_device pyInt? (fun _ => none) (fun _ _ _ => .ok true) false
      (fun _ => none) "idfa\tid\t1\t2\t3".data
      ⟨"idfa".data, "id".data, .raw ['1'], .raw ['2'], [3]⟩ [Diag.badCoords] (by decide) rfl⟩

/-- In dry-run mode handle_line reduces to a form that never consults the
store client: the write step only serializes and logs. -/
lemma handle_line_dry_spec (intP : Str → Option Int) (floatP : Str → Option ℚ)
    (memcSet : Str → Str → Packed → Except PyErr Bool)
    (dm : Str → Option Str) (line : Str) :
    handle_line intP floatP memcSet true dm line =
      (if pyStrip line = [] then .ok (.SKIP, [])
       else
         match parse_appsinstalled intP floatP (pyStrip line) with
         | .error e => .error e
         | .ok (none, _) => .ok (.ERROR, [])
         | .ok (some r, _) =>
           match dm r.dev_type with
           | none => .ok (.ERROR, [])
           | some addr =>
             if addr = [] then .ok (.ERROR, [])
             else
               match serializeUA r with
               | .error e => .error e
               | .ok _ => .ok (.OK, [])) := by
  by_cases h0 : pyStrip line = []
  · simp [handle_line, h0]
  · cases hp : parse_appsinstalled intP floatP (pyStrip line) with
    | error e => simp [handle_line, h0, hp]
    | ok v =>
      obtain ⟨orec, ds⟩ := v
      cases orec with
      | none => simp [handle_line, h0, hp]
      | some r =>
        cases hdm : dm r.dev_type with
        | none => simp [handle_line, h0, hp, hdm]
        | some addr =>
          by_cases ha : addr = []
          · simp [handle_line, h0, hp, hdm, ha]
          · cases hs : serializeUA r with
            | error e => simp [handle_line, insert_appsinstalled, h0, hp, hdm, ha, hs]
            | ok pk => simp [handle_line, insert_appsinstalled, h0, hp, hdm, ha, hs]

/-- C5 counterexample: a line that parses to a record but whose coordinates
are retained as raw text raises TypeError during serialization even in
dry-run mode, so the outcome is not Ok and an exception escapes. -/
theorem handle_line_dry_bad_coords_raises :
    handle_line pyInt? (fun _ => none) (fun _ _ _ => .ok true) true (fun _ => some ['m'])
      "idfa\tid\tA\tB\t1".data = .error .typeError := by decide

/-- C5 amended: in dry-run mode the result never depends on the store client
and no store-client call is made, and every otherwise-valid line whose
coordinates parsed as floats yields outcome Ok; lines whose coordinates were
retained as raw text instead raise during serialization (see the C5
counterexample), so the claim holds only for float-coordinate records. -/
theorem handle_line_dry_run (intP : Str → Option Int) (floatP : Str → Option ℚ)
    (memcSet memcSet2 : Str → Str → Packed → Except PyErr Bool)
    (dm : Str → Option Str) (line : Str) :
    handle_line intP floatP memcSet true dm line =
      handle_line intP floatP memcSet2 true dm line ∧
    (∀ res calls, handle_line intP floatP memcSet true dm line = .ok (res, calls) →
      calls = []) ∧
    (∀ (r : AppsInstalled) (diags : List Diag) (la lo : ℚ) (addr : Str),
      parse_appsinstalled intP floatP (pyStrip line) = .ok (some r, diags) →
      r.lat = .flt la → r.lon = .flt lo →
      dm r.dev_type = some addr → addr ≠ [] →
      handle_line intP floatP memcSet true dm line = .ok (.OK, [])) := by
  refine ⟨?_, ?_, ?_⟩
  · rw [handle_line_dry_spec, handle_line_dry_spec]
  · intro res calls hcall
    rw [handle_line_dry_spec] at hcall
    repeat' split at hcall
    all_goals simp_all
  · intro r diags la lo addr hp hlat hlon hdm ha
    have h0 : pyStrip line ≠ [] := strip_ne_nil_of_parse_some intP floatP line r diags hp
    rw [handle_line_dry_spec, if_neg h0, hp]
    simp [hdm, ha, serializeUA, hlat, hlon]

/-- C5 witness: a valid idfa line in dry-run mode yields Ok even when the
store client would raise on any call. -/
theorem handle_line_dry_run_witness :
    parse_appsinstalled pyInt? (fun _ => some 1) (pyStrip "idfa\tid\t1\t2\t3".data) =
      .ok (some ⟨"idfa".data, "id".data, .flt 1, .flt 1, [3]⟩, []) ∧
    handle_line pyInt? (fun _ => some 1) (fun _ _ _ => .error .typeError) true
      (fun _ => some ['m']) "idfa\tid\t1\t2\t3".data = .ok (.OK, []) :=
  ⟨by decide,
    (handle_line_dry_run pyInt? (fun _ => some 1) (fun _ _ _ => .error .typeError)
        (fun _ _ _ => .ok true) (fun _ => some ['m']) "idfa\tid\t1\t2\t3".data).2.2
      ⟨"idfa".data, "id".data, .flt 1, .flt 1, [3]⟩ [] 1 1 ['m'] (by decide) rfl rfl rfl
      (by decide)⟩

/-- C6 counterexample: a line with six tab-separated fields, non-empty
identity fields, an all-integer fifth field and unparseable coordinates is
not returned as a record with retained coordinates: the tuple unpacking
raises ValueError, so the claim fails for lines with more than five fields. -/
theorem parse_appsinstalled_six_fields_bad_coords_raises :
    parse_appsinstalled pyInt? (fun _ => none) "idfa\tid\tA\tB\t1\tx".data =
      .error .valueError := by decide

/-- C6 amended: for every line with exactly five tab-separated fields,
non-empty device type and device id and an all-integer app-id list, a
coordinate parse failure keeps the record: it is returned with both
coordinate fields in their raw pre-parse state and the diagnostic event
flagged. -/
theorem parse_appsinstalled_retains_bad_coords (intP : Str → Option Int)
    (floatP : Str → Option ℚ) (line dt did lat lon raw_apps : Str) (apps : List Int)
    (hsplit : pySplit '\t' (pyStrip line) = [dt, did, lat, lon, raw_apps])
    (hdt : dt ≠ []) (hdid : did ≠ [])
    (happs : intListOf intP (pySplit ',' raw_apps) = some apps)
    (hcoord : floatP lat = none ∨ floatP lon = none) :
    parse_appsinstalled intP floatP line =
      .ok (some ⟨dt, did, .raw lat, .raw lon, apps⟩, [Diag.badCoords]) := by
  rcases hcoord with hc | hc
  · cases hlon : floatP lon with
    | none => simp [parse_appsinstalled, hsplit, hdt, hdid, happs, hc, hlon]
    | some lo => simp [parse_appsinstalled, hsplit, hdt, hdid, happs, hc, hlon]
  · cases hlat : floatP lat with
    | none => simp [parse_appsinstalled, hsplit, hdt, hdid, happs, hc, hlat]
    | some la => simp [parse_appsinstalled, hsplit, hdt, hdid, happs, hc, hlat]

/-- C6 witness: a five-field line whose coordinates fail to parse. -/
theorem parse_appsinstalled_retains_bad_coords_witness :
    pySplit '\t' (pyStrip "idfa\tid\tA\tB\t1,2".data) =
      ["idfa".data, "id".data, ['A'], ['B'], "1,2".data] ∧
    parse_appsinstalled pyInt? (fun _ => none) "idfa\tid\tA\tB\t1,2".data =
      .ok (some ⟨"idfa".data, "id".data, .raw ['A'], .raw ['B'], [1, 2]⟩, [Diag.badCoords]) :=
  ⟨by decide,
    parse_appsinstalled_retains_bad_coords pyInt? (fun _ => none)
      "idfa\tid\tA\tB\t1,2".data "idfa".data "id".data ['A'] ['B'] "1,2".data [1, 2]
      (by decide) (by decide) (by decide) (by decide) (Or.inl rfl)⟩

/-- C9: in every successful run of process_file the trace contains the
rename of the file; every line outcome strictly precedes it, any verdict
strictly follows it, and its position equals the number of input lines, so
the rename happens only after all line outcomes are collected (the pool is
joined first) and regardless of the verdict. -/
theorem process_file_rename_after_outcomes
    (handle : Str → Except PyErr (HandleLineResult × List Call))
    (filename : Str) (lines : List Str) (evts : List PFEvent)
    (hok : process_file handle filename lines = .ok evts) :
    ∃ k, evts[k]? = some (PFEvent.renamed (dot_rename filename)) ∧
      (∀ j r, evts[j]? = some (PFEvent.outcome r) → j < k) ∧
      (∀ j v, evts[j]? = some (PFEvent.verdict v) → k < j) ∧
      k = lines.length := by
  unfold process_file at hok
  cases hm : poolMapLines handle lines with
  | error e => rw [hm] at hok; simp at hok
  | ok rs =>
    rw [hm] at hok
    simp only [Except.ok.injEq] at hok
    subst hok
    have hlen : rs.length = lines.length := poolMapLines_ok_length handle lines rs hm
    have hmaplen : (rs.map PFEvent.outcome).length = rs.length := by simp
    refine ⟨rs.length, ?_, ?_, ?_, hlen⟩
    · rw [List.getElem?_append_right (le_of_eq hmaplen)]
      rw [hmaplen, Nat.sub_self]
      simp
    · intro j r hj
      by_contra hnot
      push_neg at hnot
      rw [List.getElem?_append_right (by rw [hmaplen]; exact hnot)] at hj
      rw [hmaplen] at hj
      rcases hd : j - rs.length with _ | m
      · rw [hd] at hj
        simp at hj
      · rw [hd] at hj
        rw [List.getElem?_cons_succ, List.getElem?_map] at hj
        cases ho : (calculate_raiting rs).toList[m]? with
        | none => rw [ho] at hj; simp at hj
        | some v => rw [ho] at hj; simp at hj
    · intro j v hj
      rcases Nat.lt_trichotomy j rs.length with h | h | h
      · exfalso
        rw [List.getElem?_append] at hj
        rw [if_pos (by rw [hmaplen]; exact h)] at hj
        rw [List.getElem?_map] at hj
        cases ho : rs[j]? with
        | none => rw [ho] at hj; simp at hj
        | some rr => rw [ho] at hj; simp at hj
      · exfalso
        subst h
        rw [List.getElem?_append_right (le_of_eq hmaplen)] at hj
        rw [hmaplen, Nat.sub_self] at hj
        simp at hj
      · exact h

/-- C9 witness: a one-line file whose line fails, showing the outcome event
before the rename event and the rename present despite no verdict. -/
theorem process_file_rename_after_outcomes_witness :
    ∃ k, ([PFEvent.outcome HandleLineResult.ERROR, PFEvent.renamed ['.', 'a']])[k]? =
        some (PFEvent.renamed (dot_rename ['a'])) ∧
      (∀ j r, ([PFEvent.outcome HandleLineResult.ERROR, PFEvent.renamed ['.', 'a']])[j]? =
          some (PFEvent.outcome r) → j < k) ∧
      (∀ j v, ([PFEvent.outcome HandleLineResult.ERROR, PFEvent.renamed ['.', 'a']])[j]? =
          some (PFEvent.verdict v) → k < j) ∧
      k = [['x']].length :=
  process_file_rename_after_outcomes (fun _ => .ok (.ERROR, [])) ['a'] [['x']]
    [PFEvent.outcome HandleLineResult.ERROR, PFEvent.renamed ['.', 'a']] (by decide)

/-- C10 counterexample: with the configured pattern "/d/.*.tsv.gz" the file
"/d/.x.tsv.gz" is selected, and after the completion rename the renamed file
"/d/..x.tsv.gz" is selected again by the same pattern, so discovery is not
idempotent for every configured glob pattern. -/
theorem globSelect_reselects_dot_pattern :
    globSelect "/d/.*.tsv.gz".data "/d/.x.tsv.gz".data = true ∧
    globSelect "/d/.*.tsv.gz".data (dot_rename "/d/.x.tsv.gz".data) = true :=
  ⟨by decide, by decide⟩

/-- C10 amended: for every glob pattern whose basename component does not
start with '.', a file renamed by dot_rename (whose basename now starts with
the '.' marker) is never selected by the pattern: glob's hidden-file rule
excludes dot-prefixed names for such patterns. -/
theorem globSelect_no_reselect_after_rename (pattern path : Str)
    (hp : (osPathSplit pattern).2.head? ≠ some '.') :
    globSelect pattern (dot_rename path) = false := by
  have hb := basename_dot_rename path
  simp only [globSelect, glob1Match, hb, List.head?_cons]
  simp [hp]

/-- C10 witness: the default-style pattern never re-selects a renamed file. -/
theorem globSelect_no_reselect_after_rename_witness :
    (osPathSplit "/d/*.tsv.gz".data).2.head? ≠ some '.' ∧
    globSelect "/d/*.tsv.gz".data (dot_rename "/d/x.tsv.gz".data) = false :=
  ⟨by decide,
    globSelect_no_reselect_after_rename "/d/*.tsv.gz".data "/d/x.tsv.gz".data (by decide)⟩

end MemcLoad
